import Mathlib

/-!
# MechAFM force-field evaluation: a shallow embedding

This file embeds the interaction kernels of `src/interactions.cpp` (MechAFM)
in Lean 4, modelling C++ `double` arithmetic with exact real numbers, and
proves or refutes the frozen specification claims about them.

Headers that are not part of the provided sources (`vectors.hpp`,
`globals.hpp`, `fft.hpp`, `force_grid.hpp`) are modelled from the spec; each
such definition is marked `Modelled from the spec:` in its doc comment.
-/

set_option maxHeartbeats 1000000

noncomputable section

namespace MechAFM

/-- Modelled from the spec: the 3D vector type `Vec3d` of `vectors.hpp`
(not in src/); componentwise doubles, modelled with exact reals.
Default construction (`Vec3d f;`) zero-initializes, per the spec's
"zero when r below a small tolerance". -/
@[ext]
structure Vec3 where
  x : ℝ
  y : ℝ
  z : ℝ

/-- Modelled from the spec: the 2D vector type `Vec2d` of `vectors.hpp`. -/
@[ext]
structure Vec2 where
  x : ℝ
  y : ℝ

instance : Zero Vec3 := ⟨⟨0, 0, 0⟩⟩

instance : Add Vec3 := ⟨fun a b => ⟨a.x + b.x, a.y + b.y, a.z + b.z⟩⟩

instance : Neg Vec3 := ⟨fun a => ⟨-a.x, -a.y, -a.z⟩⟩

instance : Sub Vec3 := ⟨fun a b => ⟨a.x - b.x, a.y - b.y, a.z - b.z⟩⟩

instance : SMul ℝ Vec3 := ⟨fun c a => ⟨c * a.x, c * a.y, c * a.z⟩⟩

instance : Zero Vec2 := ⟨⟨0, 0⟩⟩

instance : Sub Vec2 := ⟨fun a b => ⟨a.x - b.x, a.y - b.y⟩⟩

instance : SMul ℝ Vec2 := ⟨fun c a => ⟨c * a.x, c * a.y⟩⟩

/-- Modelled from the spec: `Vec3d::dot`. -/
def Vec3.dot (a b : Vec3) : ℝ := a.x * b.x + a.y * b.y + a.z * b.z

/-- Modelled from the spec: `Vec3d::lensqr`, the squared Euclidean length. -/
def Vec3.lensqr (a : Vec3) : ℝ := a.x * a.x + a.y * a.y + a.z * a.z

/-- Modelled from the spec: `Vec3d::len`, the Euclidean length. -/
def Vec3.len (a : Vec3) : ℝ := Real.sqrt a.lensqr

/-- Modelled from the spec: `Vec3d::cross`. -/
def Vec3.cross (a b : Vec3) : Vec3 :=
  ⟨a.y * b.z - a.z * b.y, a.z * b.x - a.x * b.z, a.x * b.y - a.y * b.x⟩

/-- Modelled from the spec: `Vec3d::getXY`, the planar projection. -/
def Vec3.getXY (a : Vec3) : Vec2 := ⟨a.x, a.y⟩

/-- Modelled from the spec: `Vec2d::len`. -/
def Vec2.len (a : Vec2) : ℝ := Real.sqrt (a.x * a.x + a.y * a.y)

/-- Modelled from the spec: embedding a `Vec2d` and a z-component into a
`Vec3d`, as in `Vec3d(v2, z)`. -/
def Vec3.ofXY (a : Vec2) (z : ℝ) : Vec3 := ⟨a.x, a.y, z⟩

/-- Modelled from the spec: the fixed minimum-length tolerance `TOLERANCE`
from `globals.hpp` (not in src/). The spec fixes no numeric value ("a small
tolerance"); any positive value plays the same role, we take `10⁻⁶`. -/
def TOLERANCE : ℝ := 1 / 1000000

/-- Modelled from the spec: the constant `PI` from `globals.hpp`. -/
def PI : ℝ := Real.pi

/-- The in-place `+=` accumulation on one entry of an accumulator array
(C++ `arr[i] += v`), the only mutation the kernels perform. -/
def addAt {α : Type} [Add α] (F : ℕ → α) (i : ℕ) (v : α) : ℕ → α :=
  Function.update F i (F i + v)

/-- `LJInteraction`: Lennard-Jones pair kernel parameters
(`atom_i1_`, `atom_i2_`, `es12_`, `es6_`). -/
structure LJInteraction where
  atom_i1 : ℕ
  atom_i2 : ℕ
  es12 : ℝ
  es6 : ℝ

/-- The pair energy computed inside `LJInteraction::eval`. -/
def LJInteraction.pairEnergy (k : LJInteraction) (positions : ℕ → Vec3) : ℝ :=
  let r_vec := positions k.atom_i1 - positions k.atom_i2
  let r_sqr := r_vec.lensqr
  let r6 := r_sqr * r_sqr * r_sqr
  k.es12 / (r6 * r6) - k.es6 / r6

/-- `LJInteraction::eval` (interactions.cpp:13-25). -/
def LJInteraction.eval (k : LJInteraction) (positions : ℕ → Vec3)
    (forces : ℕ → Vec3) (energies : ℕ → ℝ) : (ℕ → Vec3) × (ℕ → ℝ) :=
  let r_vec := positions k.atom_i1 - positions k.atom_i2
  let r_sqr := r_vec.lensqr
  let r6 := r_sqr * r_sqr * r_sqr
  let term_a := k.es12 / (r6 * r6)
  let term_b := k.es6 / r6
  let f : Vec3 := ((12 * term_a - 6 * term_b) / r_sqr) • r_vec
  (addAt (addAt forces k.atom_i1 f) k.atom_i2 (-f),
   addAt (addAt energies k.atom_i1 (term_a - term_b)) k.atom_i2 (term_a - term_b))

/-- `MorseInteraction`: Morse pair kernel parameters (`de_`, `a_`, `re_`). -/
structure MorseInteraction where
  atom_i1 : ℕ
  atom_i2 : ℕ
  de : ℝ
  a : ℝ
  re : ℝ

/-- The pair energy computed inside `MorseInteraction::eval`. -/
def MorseInteraction.pairEnergy (k : MorseInteraction) (positions : ℕ → Vec3) : ℝ :=
  let r := (positions k.atom_i1 - positions k.atom_i2).len
  let d_exp := Real.exp (-k.a * (r - k.re))
  k.de * (d_exp ^ 2 - 2 * d_exp + 1)

/-- `MorseInteraction::eval` (interactions.cpp:27-38). -/
def MorseInteraction.eval (k : MorseInteraction) (positions : ℕ → Vec3)
    (forces : ℕ → Vec3) (energies : ℕ → ℝ) : (ℕ → Vec3) × (ℕ → ℝ) :=
  let r_vec := positions k.atom_i1 - positions k.atom_i2
  let r := r_vec.len
  let d_exp := Real.exp (-k.a * (r - k.re))
  let e := k.de * (d_exp ^ 2 - 2 * d_exp + 1)
  let f_abs := 2 * k.de * k.a * (d_exp ^ 2 - d_exp)
  let f : Vec3 := (f_abs / r) • r_vec
  (addAt (addAt forces k.atom_i1 f) k.atom_i2 (-f),
   addAt (addAt energies k.atom_i1 e) k.atom_i2 e)

/-- `CoulombInteraction`: point-charge pair kernel parameter (`qq_`). -/
structure CoulombInteraction where
  atom_i1 : ℕ
  atom_i2 : ℕ
  qq : ℝ

/-- The pair energy computed inside `CoulombInteraction::eval`. -/
def CoulombInteraction.pairEnergy (k : CoulombInteraction) (positions : ℕ → Vec3) : ℝ :=
  k.qq / (positions k.atom_i1 - positions k.atom_i2).len

/-- `CoulombInteraction::eval` (interactions.cpp:40-49); note: no
minimum-length guard appears in the source. -/
def CoulombInteraction.eval (k : CoulombInteraction) (positions : ℕ → Vec3)
    (forces : ℕ → Vec3) (energies : ℕ → ℝ) : (ℕ → Vec3) × (ℕ → ℝ) :=
  let r_vec := positions k.atom_i1 - positions k.atom_i2
  let r := r_vec.len
  let e := k.qq / r
  let f : Vec3 := (k.qq / (r * r * r)) • r_vec
  (addAt (addAt forces k.atom_i1 f) k.atom_i2 (-f),
   addAt (addAt energies k.atom_i1 e) k.atom_i2 e)

/-- `HarmonicInteraction`: harmonic bond kernel parameters (`k_`, `r0_`). -/
structure HarmonicInteraction where
  atom_i1 : ℕ
  atom_i2 : ℕ
  k : ℝ
  r0 : ℝ

/-- The pair energy computed inside `HarmonicInteraction::eval`. -/
def HarmonicInteraction.pairEnergy (k : HarmonicInteraction) (positions : ℕ → Vec3) : ℝ :=
  k.k * ((positions k.atom_i1 - positions k.atom_i2).len - k.r0) ^ 2

/-- `HarmonicInteraction::eval` (interactions.cpp:261-271); no
minimum-length guard appears in the source. -/
def HarmonicInteraction.eval (k : HarmonicInteraction) (positions : ℕ → Vec3)
    (forces : ℕ → Vec3) (energies : ℕ → ℝ) : (ℕ → Vec3) × (ℕ → ℝ) :=
  let r_vec := positions k.atom_i1 - positions k.atom_i2
  let r := r_vec.len
  let dr := r - k.r0
  let e := k.k * dr ^ 2
  let f : Vec3 := (-2 * k.k * dr / r) • r_vec
  (addAt (addAt forces k.atom_i1 f) k.atom_i2 (-f),
   addAt (addAt energies k.atom_i1 e) k.atom_i2 e)

/-- `TipHarmonicInteraction`: planar (tip) harmonic restraint parameters
(`k_`, `r0_`). -/
structure TipHarmonicInteraction where
  atom_i1 : ℕ
  atom_i2 : ℕ
  k : ℝ
  r0 : ℝ

/-- The pair energy computed inside `TipHarmonicInteraction::eval`. -/
def TipHarmonicInteraction.pairEnergy (k : TipHarmonicInteraction) (positions : ℕ → Vec3) : ℝ :=
  let r := ((positions k.atom_i1 - positions k.atom_i2).getXY).len
  k.k * (r - k.r0) * (r - k.r0)

/-- `TipHarmonicInteraction::eval` (interactions.cpp:217-231); the force is
the default-constructed zero vector unless `r > TOLERANCE`. -/
def TipHarmonicInteraction.eval (k : TipHarmonicInteraction) (positions : ℕ → Vec3)
    (forces : ℕ → Vec3) (energies : ℕ → ℝ) : (ℕ → Vec3) × (ℕ → ℝ) :=
  let r_vec := positions k.atom_i1 - positions k.atom_i2
  let r_2d := r_vec.getXY
  let r := r_2d.len
  let dr := r - k.r0
  let e := k.k * dr * dr
  let f : Vec3 := if TOLERANCE < r then Vec3.ofXY ((-2 * k.k * dr / r) • r_2d) 0 else 0
  (addAt (addAt forces k.atom_i1 f) k.atom_i2 (-f),
   addAt (addAt energies k.atom_i1 e) k.atom_i2 e)

/-- `XYHarmonicInteraction`: in-plane restraint parameters (`k_`, `p0_`). -/
structure XYHarmonicInteraction where
  atom_i : ℕ
  k : ℝ
  p0 : Vec2

/-- `XYHarmonicInteraction::eval` (interactions.cpp:233-243); the force is
the default-constructed zero vector unless `r > TOLERANCE`. -/
def XYHarmonicInteraction.eval (k : XYHarmonicInteraction) (positions : ℕ → Vec3)
    (forces : ℕ → Vec3) (energies : ℕ → ℝ) : (ℕ → Vec3) × (ℕ → ℝ) :=
  let r_2d := (positions k.atom_i).getXY - k.p0
  let r := r_2d.len
  let e := k.k * r * r
  let f : Vec3 := if TOLERANCE < r then Vec3.ofXY ((-2 * k.k) • r_2d) 0 else 0
  (addAt forces k.atom_i f, addAt energies k.atom_i e)

/-- `SubstrateInteraction`: substrate wall kernel parameters
(`z0_`, `sig_`, `rc_`, `multiplier_`, `ulj_`, `ushift_`). -/
structure SubstrateInteraction where
  atom_i : ℕ
  z0 : ℝ
  sig : ℝ
  rc : ℝ
  multiplier : ℝ
  ulj : ℝ
  ushift : ℝ

/-- `SubstrateInteraction::eval` (interactions.cpp:245-259); only the z
component of the owning particle's force entry is touched. -/
def SubstrateInteraction.eval (k : SubstrateInteraction) (positions : ℕ → Vec3)
    (forces : ℕ → Vec3) (energies : ℕ → ℝ) : (ℕ → Vec3) × (ℕ → ℝ) :=
  let dz := (positions k.atom_i).z - k.z0
  let sig_z := k.sig / dz
  let sig_z2 := sig_z * sig_z
  let sig_z4 := sig_z2 * sig_z2
  let sig_z10 := sig_z4 * sig_z4 * sig_z2
  let eterm := if dz ≤ k.rc then
    k.multiplier * (2 / 5 * sig_z10 - sig_z4) + k.ulj * dz * dz - k.ushift else 0
  let fterm := if dz ≤ k.rc then
    4 * k.multiplier / dz * (sig_z10 - sig_z4) + 2 * k.ulj * dz else 0
  (Function.update forces k.atom_i
     ⟨(forces k.atom_i).x, (forces k.atom_i).y, (forces k.atom_i).z + fterm⟩,
   addAt energies k.atom_i eterm)

/-- `HarmonicAngleInteraction`: harmonic angle kernel parameters
(`shared_i_`, `k_`, `theta0_`). -/
structure HarmonicAngleInteraction where
  atom_i1 : ℕ
  atom_i2 : ℕ
  shared_i : ℕ
  k : ℝ
  theta0 : ℝ

/-- The clamping of the cosine ratio in `HarmonicAngleInteraction::eval`
(interactions.cpp:279-283): values above 1 are set to exactly 1, values
below −1 to exactly −1. -/
def clampCos (c : ℝ) : ℝ := if 1 < c then 1 else if c < -1 then -1 else c

/-- The raw (unclamped) cosine ratio computed in
`HarmonicAngleInteraction::eval` (interactions.cpp:278). -/
def HarmonicAngleInteraction.rawCos (k : HarmonicAngleInteraction)
    (positions : ℕ → Vec3) : ℝ :=
  let r1_vec := positions k.atom_i1 - positions k.shared_i
  let r2_vec := positions k.atom_i2 - positions k.shared_i
  r1_vec.dot r2_vec / (r1_vec.len * r2_vec.len)

/-- The angle θ computed in `HarmonicAngleInteraction::eval`
(interactions.cpp:284): inverse cosine of the clamped ratio. -/
def thetaOfCos (c : ℝ) : ℝ := Real.arccos (clampCos c)

/-- `HarmonicAngleInteraction::eval` (interactions.cpp:273-297). -/
def HarmonicAngleInteraction.eval (k : HarmonicAngleInteraction) (positions : ℕ → Vec3)
    (forces : ℕ → Vec3) (energies : ℕ → ℝ) : (ℕ → Vec3) × (ℕ → ℝ) :=
  let r1_vec := positions k.atom_i1 - positions k.shared_i
  let r2_vec := positions k.atom_i2 - positions k.shared_i
  let r1 := r1_vec.len
  let r2 := r2_vec.len
  let cos_t := clampCos (r1_vec.dot r2_vec / (r1 * r2))
  let theta := Real.arccos cos_t
  let sin_t := Real.sin theta
  let d_theta := theta - k.theta0
  let f_multiplier := -2 * k.k * d_theta / sin_t
  let f1 : Vec3 := (-f_multiplier / r1) • ((1 / r2) • r2_vec - (cos_t / r1) • r1_vec)
  let f2 : Vec3 := (-f_multiplier / r2) • ((1 / r1) • r1_vec - (cos_t / r2) • r2_vec)
  let e := k.k * d_theta ^ 2
  (addAt (addAt (addAt forces k.atom_i1 f1) k.atom_i2 f2) k.shared_i (-(f1 + f2)),
   addAt (addAt (addAt energies k.atom_i1 e) k.atom_i2 e) k.shared_i e)

/-- `HarmonicDihedralInteraction`: harmonic dihedral kernel parameters
(`k_`, `sigma0_`). -/
structure HarmonicDihedralInteraction where
  atom_i1 : ℕ
  atom_i2 : ℕ
  atom_i3 : ℕ
  atom_i4 : ℕ
  k : ℝ
  sigma0 : ℝ

/-- `HarmonicDihedralInteraction::eval` (interactions.cpp:299-327). -/
def HarmonicDihedralInteraction.eval (k : HarmonicDihedralInteraction)
    (positions : ℕ → Vec3) (forces : ℕ → Vec3) (energies : ℕ → ℝ) :
    (ℕ → Vec3) × (ℕ → ℝ) :=
  let r12_vec := positions k.atom_i1 - positions k.atom_i2
  let r23_vec := positions k.atom_i2 - positions k.atom_i3
  let r43_vec := positions k.atom_i4 - positions k.atom_i3
  let r23 := r23_vec.len
  let m_vec := r12_vec.cross r23_vec
  let n_vec := r43_vec.cross r23_vec
  let m := m_vec.len
  let n := n_vec.len
  let tan_s := n_vec.dot r12_vec * r23 / m_vec.dot n_vec
  let sigma := Real.arctan tan_s
  let d_sigma := sigma - k.sigma0
  let f_multiplier := 2 * k.k * d_sigma
  let f1 : Vec3 := (-f_multiplier * r23 / (m * m)) • m_vec
  let f2 : Vec3 := -((f_multiplier * (r43_vec.dot r23_vec) / (n * n * r23)) • n_vec
      - (f_multiplier * (r23 * r23 + r12_vec.dot r23_vec) / (m * m * r23)) • m_vec)
  let f3 : Vec3 := -((f_multiplier * (r12_vec.dot r23_vec) / (m * m * r23)) • m_vec
      + (f_multiplier * (r23 * r23 - r43_vec.dot r23_vec) / (n * n * r23)) • n_vec)
  let f4 : Vec3 := (f_multiplier * r23 / (n * n)) • n_vec
  let e := k.k * d_sigma ^ 2
  (addAt (addAt (addAt (addAt forces k.atom_i1 f1) k.atom_i2 f2) k.atom_i3 f3) k.atom_i4 f4,
   addAt (addAt (addAt (addAt energies k.atom_i1 e) k.atom_i2 e) k.atom_i3 e) k.atom_i4 e)

/-- `ForceGrid`: lattice-shaped force/energy fields with spacing, offset and
a periodic flag (force_grid.hpp is not in src/; fields per the spec's data
model). Field values are indexed by integer triples. -/
structure ForceGrid where
  nx : ℕ
  ny : ℕ
  nz : ℕ
  spacing : Vec3
  offset : Vec3
  periodic : Bool
  forces : ℕ → ℕ → ℕ → Vec3
  energies : ℕ → ℕ → ℕ → ℝ

/-- Modelled from the spec: periodic wraparound of a (possibly negative)
cell index onto `[0, n)` (§4.3 "periodic wraparound on each axis"). -/
def wrapIdx (n : ℕ) (i : ℤ) : ℕ := (i % (n : ℤ)).toNat

/-- Modelled from the spec: trilinear interpolation with periodic
wraparound of both fields of a `ForceGrid` (§4.3; force_grid.hpp is not in
src/). Locates the enclosing cell, and blends the eight surrounding corners
with the trilinear weights. -/
def ForceGrid.interpolate (g : ForceGrid) (p : Vec3) : Vec3 × ℝ :=
  let cx : ℤ := ⌊(p.x - g.offset.x) / g.spacing.x⌋
  let cy : ℤ := ⌊(p.y - g.offset.y) / g.spacing.y⌋
  let cz : ℤ := ⌊(p.z - g.offset.z) / g.spacing.z⌋
  let tx := (p.x - g.offset.x) / g.spacing.x - cx
  let ty := (p.y - g.offset.y) / g.spacing.y - cy
  let tz := (p.z - g.offset.z) / g.spacing.z - cz
  let w : ℕ → ℝ → ℝ := fun a t => if a = 0 then 1 - t else t
  let corner : ℕ → ℕ → ℕ → Vec3 × ℝ := fun a b c =>
    (g.forces (wrapIdx g.nx (cx + a)) (wrapIdx g.ny (cy + b)) (wrapIdx g.nz (cz + c)),
     g.energies (wrapIdx g.nx (cx + a)) (wrapIdx g.ny (cy + b)) (wrapIdx g.nz (cz + c)))
  let blend : (Vec3 × ℝ) → ℝ → Vec3 × ℝ := fun v c => (c • v.1, c * v.2)
  let sum8 : Vec3 × ℝ := Id.run do
    let mut acc : Vec3 × ℝ := (0, 0)
    for a in [0, 1] do
      for b in [0, 1] do
        for c in [0, 1] do
          let v := blend (corner a b c) (w a tx * w b ty * w c tz)
          acc := (acc.1 + v.1, acc.2 + v.2)
    return acc
  sum8

/-- `ElectrostaticPotentialInteraction`: holds the spectrally built
`force_grid_`; its eval hardcodes particle index 1 (the tip apex). -/
structure ElectrostaticPotentialInteraction where
  force_grid : ForceGrid

/-- `ElectrostaticPotentialInteraction::eval` (interactions.cpp:201-207). -/
def ElectrostaticPotentialInteraction.eval (k : ElectrostaticPotentialInteraction)
    (positions : ℕ → Vec3) (forces : ℕ → Vec3) (energies : ℕ → ℝ) :
    (ℕ → Vec3) × (ℕ → ℝ) :=
  let tip := k.force_grid.interpolate (positions 1)
  (addAt forces 1 tip.1, addAt energies 1 tip.2)

/-- `GridInteraction`: holds a generic `force_grid_`; its eval hardcodes
particle index 1. -/
structure GridInteraction where
  force_grid : ForceGrid

/-- `GridInteraction::eval` (interactions.cpp:209-215). -/
def GridInteraction.eval (k : GridInteraction) (positions : ℕ → Vec3)
    (forces : ℕ → Vec3) (energies : ℕ → ℝ) : (ℕ → Vec3) × (ℕ → ℝ) :=
  let tip := k.force_grid.interpolate (positions 1)
  (addAt forces 1 tip.1, addAt energies 1 tip.2)

/-- Modelled from the spec: the reciprocal-space lattice spacing produced
by the forward transform (fft.hpp is not in src/): `1/(N·s)` for an axis of
length `N` and real-space spacing `s` (§4.2 step 6, "standard unshifted
ordering after a forward transform"). -/
def kSpacing (N : ℕ) (s : ℝ) : ℝ := 1 / (N * s)

/-- The wavenumber table built per axis by the spectral builder
(interactions.cpp:140-154): `k[i] = i·ks`, and `k[i] -= N·ks` when
`i >= int(N/2)` — a truncating integer division. -/
def kpoints (N : ℕ) (s : ℝ) (i : ℕ) : ℝ :=
  if N / 2 ≤ i then i * kSpacing N s - N * kSpacing N s else i * kSpacing N s

/-- The wavenumber rule as the spec words it (§4.2 step 6 / claim C3):
frequency `i/(N·s)` when `i < N/2` with exact (rational) halves — so for
odd `N`, `N/2` is not an integer — else `(i−N)/(N·s)`. -/
def specKpoint (N : ℕ) (s : ℝ) (i : ℕ) : ℝ :=
  if (i : ℝ) < (N : ℝ) / 2 then (i : ℝ) / (N * s) else ((i : ℝ) - N) / (N * s)

/-- The wavenumber rule with the truncating comparison the code actually
uses: frequency `i/(N·s)` when `i < ⌊N/2⌋`, else `(i−N)/(N·s)`. -/
def flooredKpoint (N : ℕ) (s : ℝ) (i : ℕ) : ℝ :=
  if i < N / 2 then (i : ℝ) / (N * s) else ((i : ℝ) - N) / (N * s)

/-- Modelled from the spec: the 3D inverse discrete Fourier transform
(fft.hpp is not in src/): the standard inverse transform with positive
exponent and `1/(Nx·Ny·Nz)` normalisation. -/
def idft3 (nx ny nz : ℕ) (F : ℕ → ℕ → ℕ → ℂ) (ix iy iz : ℕ) : ℂ :=
  (1 / ((nx : ℂ) * (ny : ℂ) * (nz : ℂ))) *
    ∑ jx in Finset.range nx, ∑ jy in Finset.range ny, ∑ jz in Finset.range nz,
      Complex.exp (2 * (PI : ℂ) * Complex.I *
        (((ix * jx : ℕ) : ℂ) / (nx : ℂ) + ((iy * jy : ℕ) : ℂ) / (ny : ℂ) +
         ((iz * jz : ℕ) : ℂ) / (nz : ℂ))) * F jx jy jz

/-- One force-component field of the spectral builder
(interactions.cpp:156-166 and the analogous y/z loops): every node of the
temporary spectrum is set to `-2.0*PI*dcomplex(0.0,1.0)*k*E` — the code's
literal multiplier — the grid is inverse transformed, and the (real-valued)
result is the force component; `kOf` gives the node's wavenumber for the
chosen axis. -/
def forceComponentField (nx ny nz : ℕ) (kOf : ℕ → ℕ → ℕ → ℝ)
    (E : ℕ → ℕ → ℕ → ℂ) (ix iy iz : ℕ) : ℝ :=
  (idft3 nx ny nz
    (fun jx jy jz => (-2 : ℂ) * (PI : ℂ) * Complex.I * ((kOf jx jy jz : ℝ) : ℂ) * E jx jy jz)
    ix iy iz).re

/-- The force-component rule as the spec words it (§4.2 step 5 / claim C2):
multiply the energy spectrum pointwise by `i·2π·k` for the axis, then
inverse transform. -/
def specForceComponentField (nx ny nz : ℕ) (kOf : ℕ → ℕ → ℕ → ℝ)
    (E : ℕ → ℕ → ℕ → ℂ) (ix iy iz : ℕ) : ℝ :=
  (idft3 nx ny nz
    (fun jx jy jz => Complex.I * 2 * (PI : ℂ) * ((kOf jx jy jz : ℝ) : ℂ) * E jx jy jz)
    ix iy iz).re

/-- The closed set of interaction kinds (§3: "a closed set of variants"),
exactly the kernel catalogue of interactions.cpp. -/
inductive Interaction where
  | lj : LJInteraction → Interaction
  | morse : MorseInteraction → Interaction
  | coulomb : CoulombInteraction → Interaction
  | harmonic : HarmonicInteraction → Interaction
  | tipHarmonic : TipHarmonicInteraction → Interaction
  | xyHarmonic : XYHarmonicInteraction → Interaction
  | substrate : SubstrateInteraction → Interaction
  | angle : HarmonicAngleInteraction → Interaction
  | dihedral : HarmonicDihedralInteraction → Interaction
  | epotential : ElectrostaticPotentialInteraction → Interaction
  | grid : GridInteraction → Interaction

/-- Dispatch of the virtual `Interaction::eval` over the kernel kinds. -/
def Interaction.eval (i : Interaction) (positions : ℕ → Vec3)
    (forces : ℕ → Vec3) (energies : ℕ → ℝ) : (ℕ → Vec3) × (ℕ → ℝ) :=
  match i with
  | .lj k => k.eval positions forces energies
  | .morse k => k.eval positions forces energies
  | .coulomb k => k.eval positions forces energies
  | .harmonic k => k.eval positions forces energies
  | .tipHarmonic k => k.eval positions forces energies
  | .xyHarmonic k => k.eval positions forces energies
  | .substrate k => k.eval positions forces energies
  | .angle k => k.eval positions forces energies
  | .dihedral k => k.eval positions forces energies
  | .epotential k => k.eval positions forces energies
  | .grid k => k.eval positions forces energies

/-- One evaluation pass over a fixed interaction set: each kernel adds its
contribution into the shared accumulators, in list order. -/
def evalAll (ints : List Interaction) (positions : ℕ → Vec3)
    (forces : ℕ → Vec3) (energies : ℕ → ℝ) : (ℕ → Vec3) × (ℕ → ℝ) :=
  match ints with
  | [] => (forces, energies)
  | i :: rest =>
      let acc := i.eval positions forces energies
      evalAll rest positions acc.1 acc.2

/-- A concrete position array: particle 0 at unit distance from particle 1
along x, all other particles at the origin. -/
def witPos : ℕ → Vec3 := fun n => if n = 0 then ⟨1, 0, 0⟩ else 0

/-- A concrete position array with particle 0 at half the minimum-length
tolerance from particle 1 along x. -/
def belowTolPositions : ℕ → Vec3 := fun n => if n = 0 then ⟨1 / 2000000, 0, 0⟩ else 0

/-!
## Basic lemmas about the embedding
-/

theorem Vec3.zero_def : (0 : Vec3) = ⟨0, 0, 0⟩ := rfl

theorem Vec3.add_def (a b : Vec3) : a + b = ⟨a.x + b.x, a.y + b.y, a.z + b.z⟩ := rfl

theorem Vec3.neg_def (a : Vec3) : -a = ⟨-a.x, -a.y, -a.z⟩ := rfl

theorem Vec3.sub_def (a b : Vec3) : a - b = ⟨a.x - b.x, a.y - b.y, a.z - b.z⟩ := rfl

theorem Vec3.smul_def (c : ℝ) (a : Vec3) : c • a = ⟨c * a.x, c * a.y, c * a.z⟩ := rfl

theorem Vec3.add_zero (a : Vec3) : a + 0 = a := by
  ext <;> simp [Vec3.add_def, Vec3.zero_def]

theorem Vec3.neg_zero_eq : -(0 : Vec3) = 0 := by
  ext <;> simp [Vec3.neg_def, Vec3.zero_def]

theorem Vec3.lensqr_nonneg (a : Vec3) : 0 ≤ a.lensqr := by
  have hx : 0 ≤ a.x * a.x := mul_self_nonneg _
  have hy : 0 ≤ a.y * a.y := mul_self_nonneg _
  have hz : 0 ≤ a.z * a.z := mul_self_nonneg _
  unfold Vec3.lensqr
  linarith

theorem Vec3.lensqr_smul (c : ℝ) (a : Vec3) : (c • a).lensqr = c ^ 2 * a.lensqr := by
  simp only [Vec3.smul_def, Vec3.lensqr]
  ring

theorem TOLERANCE_pos : 0 < TOLERANCE := by norm_num [TOLERANCE]

theorem addAt_self {α : Type} [Add α] (F : ℕ → α) (i : ℕ) (v : α) :
    addAt F i v i = F i + v := by
  simp [addAt]

theorem addAt_other {α : Type} [Add α] (F : ℕ → α) (i j : ℕ) (v : α) (h : j ≠ i) :
    addAt F i v j = F j := by
  simp [addAt, Function.update_noteq h]

theorem addAt_zero_vec (F : ℕ → Vec3) (i : ℕ) : addAt F i 0 = F := by
  unfold addAt
  rw [Vec3.add_zero]
  exact Function.update_eq_self i F

theorem addAt_zero_real (E : ℕ → ℝ) (i : ℕ) : addAt E i 0 = E := by
  unfold addAt
  rw [add_zero]
  exact Function.update_eq_self i E

/-- The common accumulation pattern of all pairwise kernels
(`forces[i1] += f; forces[i2] -= f`) is antisymmetric between the two
entries whenever the entries are distinct. -/
theorem addAt_pair_antisym (F : ℕ → Vec3) (i1 i2 : ℕ) (f : Vec3) (h : i1 ≠ i2) :
    (addAt (addAt F i1 f) i2 (-f)) i1 - F i1
      = -((addAt (addAt F i1 f) i2 (-f)) i2 - F i2) := by
  rw [addAt_other _ _ _ _ h, addAt_self, addAt_self, addAt_other _ _ _ _ (Ne.symm h)]
  ext <;> simp [Vec3.add_def, Vec3.sub_def, Vec3.neg_def]

/-- The common accumulation pattern of all pairwise kernels
(`energies[i1] += e; energies[i2] += e`) gives the full value `e` to both
entries whenever the entries are distinct. -/
theorem addAt_pair_both (E : ℕ → ℝ) (i1 i2 : ℕ) (e : ℝ) (h : i1 ≠ i2) :
    (addAt (addAt E i1 e) i2 e) i1 = E i1 + e ∧
      (addAt (addAt E i1 e) i2 e) i2 = E i2 + e := by
  constructor
  · rw [addAt_other _ _ _ _ h, addAt_self]
  · rw [addAt_self, addAt_other _ _ _ _ (Ne.symm h)]

theorem witPos_sub : witPos 0 - witPos 1 = ⟨1, 0, 0⟩ := by
  ext <;> simp [witPos, Vec3.sub_def, Vec3.zero_def]

theorem witPos_len : (witPos 0 - witPos 1).len = 1 := by
  rw [witPos_sub]
  simp [Vec3.len, Vec3.lensqr]

theorem witPos_sub_ne : witPos 0 - witPos 1 ≠ 0 := by
  rw [witPos_sub]
  intro h
  have hx := congrArg Vec3.x h
  simp [Vec3.zero_def] at hx

/-!
## Claim theorems
-/

/-- C3 counterexample: the claim's wavenumber rule ("i/(N·s) when i < N/2,
including odd N where N/2 is not an integer") disagrees with the code at
axis length N = 5, spacing s = 1, index i = 2: the code's truncating
comparison `2 >= int(5/2)` fires and yields −3/5, while the claim's exact
comparison 2 < 5/2 yields 2/5. -/
theorem kpoints_claim_counterexample : kpoints 5 1 2 ≠ specKpoint 5 1 2 := by
  have h1 : kpoints 5 1 2 = -(3 / 5) := by
    norm_num [kpoints, kSpacing]
  have h2 : specKpoint 5 1 2 = 2 / 5 := by
    norm_num [specKpoint]
  rw [h1, h2]
  norm_num

/-- C3 (amended): the wavenumber assigned to index i equals i/(N·s) when
i < ⌊N/2⌋ (truncating integer division) and (i−N)/(N·s) when i ≥ ⌊N/2⌋,
for every axis length N, spacing s and index i. -/
theorem kpoints_floored_rule (N : ℕ) (s : ℝ) (i : ℕ) :
    kpoints N s i = flooredKpoint N s i := by
  by_cases h : N / 2 ≤ i
  · rw [kpoints, if_pos h, flooredKpoint, if_neg (by omega)]
    rw [kSpacing]
    ring
  · rw [kpoints, if_neg h, flooredKpoint, if_pos (by omega)]
    rw [kSpacing]
    ring

/-- C5: the harmonic angle kernel's clamp (interactions.cpp:279-284) maps
any cosine ratio that evaluates above 1 — as floating round-off can
produce — to exactly 1, and the resulting angle θ = arccos 1 is 0, so the
inverse cosine is never applied outside its domain. -/
theorem angle_clamp_above_one (c : ℝ) (h : 1 < c) :
    clampCos c = 1 ∧ thetaOfCos c = 0 := by
  refine ⟨?_, ?_⟩
  · simp [clampCos, h]
  · simp [thetaOfCos, clampCos, h, Real.arccos_one]

/-- C5 witness: the claim's own example value 1.0000001. -/
theorem angle_clamp_above_one_witness :
    (1 : ℝ) < 10000001 / 10000000 ∧ clampCos (10000001 / 10000000) = 1 ∧
      thetaOfCos (10000001 / 10000000) = 0 :=
  ⟨by norm_num, (angle_clamp_above_one _ (by norm_num)).1,
    (angle_clamp_above_one _ (by norm_num)).2⟩

/-- C9: one evaluation pass over a fixed interaction set and position
array, started from zeroed force/energy accumulators, gives the same
result no matter which freshly-zeroed accumulator arrays are supplied:
`evalAll` depends only on the stored kernel parameters, the positions and
the (zeroed) accumulator contents — there is no hidden state. -/
theorem evaluation_deterministic (ints : List Interaction) (positions : ℕ → Vec3)
    (F1 F2 : ℕ → Vec3) (E1 E2 : ℕ → ℝ)
    (hF1 : ∀ i, F1 i = 0) (hE1 : ∀ i, E1 i = 0)
    (hF2 : ∀ i, F2 i = 0) (hE2 : ∀ i, E2 i = 0) :
    evalAll ints positions F1 E1 = evalAll ints positions F2 E2 := by
  have hF : F1 = F2 := funext fun i => (hF1 i).trans (hF2 i).symm
  have hE : E1 = E2 := funext fun i => (hE1 i).trans (hE2 i).symm
  rw [hF, hE]

/-- C9 witness: a concrete two-kernel pass repeated on two freshly-zeroed
accumulator arrays. -/
theorem evaluation_deterministic_witness :
    evalAll [Interaction.coulomb ⟨0, 1, 1⟩, Interaction.lj ⟨0, 1, 1, 1⟩] witPos
        (fun _ => 0) (fun _ => 0)
      = evalAll [Interaction.coulomb ⟨0, 1, 1⟩, Interaction.lj ⟨0, 1, 1, 1⟩] witPos
        (fun _ => 0) (fun _ => 0) :=
  evaluation_deterministic _ _ _ _ _ _ (fun _ => rfl) (fun _ => rfl)
    (fun _ => rfl) (fun _ => rfl)

/-- C10: both grid-lookup kernels read the position at index 1 and add the
interpolated force and energy at index 1 of the accumulators, whatever the
stored grid is; every other accumulator entry is unchanged. -/
theorem grid_kernels_act_on_index_one (g1 g2 : ForceGrid) (positions : ℕ → Vec3)
    (F : ℕ → Vec3) (E : ℕ → ℝ) :
    ((ElectrostaticPotentialInteraction.mk g1).eval positions F E).1 1
        = F 1 + (g1.interpolate (positions 1)).1 ∧
    ((ElectrostaticPotentialInteraction.mk g1).eval positions F E).2 1
        = E 1 + (g1.interpolate (positions 1)).2 ∧
    ((GridInteraction.mk g2).eval positions F E).1 1
        = F 1 + (g2.interpolate (positions 1)).1 ∧
    ((GridInteraction.mk g2).eval positions F E).2 1
        = E 1 + (g2.interpolate (positions 1)).2 ∧
    ∀ j, j ≠ 1 → ((ElectrostaticPotentialInteraction.mk g1).eval positions F E).1 j = F j ∧
        ((ElectrostaticPotentialInteraction.mk g1).eval positions F E).2 j = E j ∧
        ((GridInteraction.mk g2).eval positions F E).1 j = F j ∧
        ((GridInteraction.mk g2).eval positions F E).2 j = E j := by
  refine ⟨?_, ?_, ?_, ?_, ?_⟩
  · simp [ElectrostaticPotentialInteraction.eval, addAt_self]
  · simp [ElectrostaticPotentialInteraction.eval, addAt_self]
  · simp [GridInteraction.eval, addAt_self]
  · simp [GridInteraction.eval, addAt_self]
  · intro j hj
    refine ⟨?_, ?_, ?_, ?_⟩ <;>
      simp [ElectrostaticPotentialInteraction.eval, GridInteraction.eval,
        addAt_other _ _ _ _ hj]

/-- C10 witness: a concrete trivial grid; entry 0 of both accumulators is
untouched by both grid kernels. -/
theorem grid_kernels_act_on_index_one_witness :
    ((ElectrostaticPotentialInteraction.mk
        (ForceGrid.mk 1 1 1 ⟨1, 1, 1⟩ 0 true (fun _ _ _ => 0) (fun _ _ _ => 0))).eval
      witPos (fun _ => 0) (fun _ => 0)).1 0 = (fun _ => (0 : Vec3)) 0 ∧
    ((GridInteraction.mk
        (ForceGrid.mk 1 1 1 ⟨1, 1, 1⟩ 0 true (fun _ _ _ => 0) (fun _ _ _ => 0))).eval
      witPos (fun _ => 0) (fun _ => 0)).1 0 = (fun _ => (0 : Vec3)) 0 := by
  have h := (grid_kernels_act_on_index_one
    (ForceGrid.mk 1 1 1 ⟨1, 1, 1⟩ 0 true (fun _ _ _ => 0) (fun _ _ _ => 0))
    (ForceGrid.mk 1 1 1 ⟨1, 1, 1⟩ 0 true (fun _ _ _ => 0) (fun _ _ _ => 0))
    witPos (fun _ => 0) (fun _ => 0)).2.2.2.2 0 (by decide)
  exact ⟨h.1, h.2.2.1⟩

/-- C1 counterexample: the Coulomb kernel has no minimum-length guard.
With charge product 1 and the two particles separated by half the
tolerance (derived length 1/2000000 < TOLERANCE), eval adds a non-zero
(huge) force to participant 0 instead of zero. -/
theorem minimum_length_guard_counterexample :
    (belowTolPositions 0 - belowTolPositions 1).len < TOLERANCE ∧
      ((CoulombInteraction.mk 0 1 1).eval belowTolPositions
        (fun _ => 0) (fun _ => 0)).1 0 ≠ 0 := by
  have hsub : belowTolPositions 0 - belowTolPositions 1 = ⟨1 / 2000000, 0, 0⟩ := by
    ext <;> simp [belowTolPositions, Vec3.sub_def, Vec3.zero_def]
  have hlen : (belowTolPositions 0 - belowTolPositions 1).len = 1 / 2000000 := by
    rw [hsub]
    show Real.sqrt (1 / 2000000 * (1 / 2000000) + 0 * 0 + 0 * 0) = 1 / 2000000
    rw [show (1 / 2000000 * (1 / 2000000) + 0 * 0 + 0 * 0 : ℝ)
        = 1 / 2000000 * (1 / 2000000) by ring]
    exact Real.sqrt_mul_self (by norm_num)
  constructor
  · rw [hlen]
    norm_num [TOLERANCE]
  · intro hzero
    have hx : (((CoulombInteraction.mk 0 1 1).eval belowTolPositions
        (fun _ => 0) (fun _ => 0)).1 0).x = 0 := by
      rw [hzero]
      rfl
    rw [CoulombInteraction.eval] at hx
    simp only [] at hx
    rw [addAt_other _ _ _ _ (by decide : (0 : ℕ) ≠ 1), addAt_self, hlen, hsub] at hx
    simp only [Vec3.smul_def, Vec3.add_def, Vec3.zero_def] at hx
    norm_num at hx

/-- C1 (amended): of the listed kernels, exactly the planar tip restraint
and the in-plane restraint carry the minimum-length guard: whenever their
derived (planar) length is at or below TOLERANCE, eval adds exactly zero
force, leaving the force accumulators unchanged. The Lennard-Jones, Morse,
Coulomb, harmonic bond, angle and dihedral kernels divide unguarded (see
the counterexample). -/
theorem planar_guard_zero_force (kt : TipHarmonicInteraction)
    (kxy : XYHarmonicInteraction) (positions : ℕ → Vec3) (F : ℕ → Vec3) (E : ℕ → ℝ)
    (ht : ((positions kt.atom_i1 - positions kt.atom_i2).getXY).len ≤ TOLERANCE)
    (hxy : ((positions kxy.atom_i).getXY - kxy.p0).len ≤ TOLERANCE) :
    (kt.eval positions F E).1 = F ∧ (kxy.eval positions F E).1 = F := by
  constructor
  · show (addAt (addAt F kt.atom_i1 _) kt.atom_i2 _) = F
    rw [if_neg (not_lt.mpr ht), Vec3.neg_zero_eq, addAt_zero_vec, addAt_zero_vec]
  · show (addAt F kxy.atom_i _) = F
    rw [if_neg (not_lt.mpr hxy), addAt_zero_vec]

/-- C1 witness: both restrained particles at the origin — derived planar
length 0 ≤ TOLERANCE — and the force array is returned unchanged. -/
theorem planar_guard_zero_force_witness :
    (((fun _ => (0 : Vec3)) 0 - (fun _ => (0 : Vec3)) 1).getXY).len ≤ TOLERANCE ∧
    ((TipHarmonicInteraction.mk 0 1 1 0).eval (fun _ => 0)
        (fun _ => 0) (fun _ => 0)).1 = (fun _ => 0) ∧
    ((XYHarmonicInteraction.mk 0 1 0).eval (fun _ => 0)
        (fun _ => 0) (fun _ => 0)).1 = (fun _ => 0) := by
  have hlen : (((fun _ => (0 : Vec3)) 0 - (fun _ => (0 : Vec3)) 1).getXY).len ≤ TOLERANCE := by
    show Vec2.len ⟨0 - 0, 0 - 0⟩ ≤ TOLERANCE
    rw [Vec2.len]
    rw [show ((0 : ℝ) - 0) * (0 - 0) + (0 - 0) * (0 - 0) = 0 by ring, Real.sqrt_zero]
    exact le_of_lt TOLERANCE_pos
  have hlen2 : ((((fun _ => (0 : Vec3)) 0).getXY) - (0 : Vec2)).len ≤ TOLERANCE := by
    show Vec2.len ⟨0 - 0, 0 - 0⟩ ≤ TOLERANCE
    rw [Vec2.len]
    rw [show ((0 : ℝ) - 0) * (0 - 0) + (0 - 0) * (0 - 0) = 0 by ring, Real.sqrt_zero]
    exact le_of_lt TOLERANCE_pos
  exact ⟨hlen, (planar_guard_zero_force (TipHarmonicInteraction.mk 0 1 1 0)
    (XYHarmonicInteraction.mk 0 1 0) (fun _ => 0) (fun _ => 0) (fun _ => 0) hlen hlen2).1,
    (planar_guard_zero_force (TipHarmonicInteraction.mk 0 1 1 0)
    (XYHarmonicInteraction.mk 0 1 0) (fun _ => 0) (fun _ => 0) (fun _ => 0) hlen hlen2).2⟩

/-- C4: for every two-body kernel (Lennard-Jones, Morse, Coulomb, harmonic
bond, planar tip restraint) with distinct participants and non-degenerate
separation, the force contribution added to the first participant is the
exact negation of the contribution added to the second. -/
theorem two_body_antisymmetry (i1 i2 : ℕ) (es12 es6 de a re qq hk hr0 tk tr0 : ℝ)
    (positions : ℕ → Vec3) (F : ℕ → Vec3) (E : ℕ → ℝ)
    (hne : i1 ≠ i2) (_hsep : positions i1 - positions i2 ≠ 0) :
    (((LJInteraction.mk i1 i2 es12 es6).eval positions F E).1 i1 - F i1
        = -(((LJInteraction.mk i1 i2 es12 es6).eval positions F E).1 i2 - F i2)) ∧
    (((MorseInteraction.mk i1 i2 de a re).eval positions F E).1 i1 - F i1
        = -(((MorseInteraction.mk i1 i2 de a re).eval positions F E).1 i2 - F i2)) ∧
    (((CoulombInteraction.mk i1 i2 qq).eval positions F E).1 i1 - F i1
        = -(((CoulombInteraction.mk i1 i2 qq).eval positions F E).1 i2 - F i2)) ∧
    (((HarmonicInteraction.mk i1 i2 hk hr0).eval positions F E).1 i1 - F i1
        = -(((HarmonicInteraction.mk i1 i2 hk hr0).eval positions F E).1 i2 - F i2)) ∧
    (((TipHarmonicInteraction.mk i1 i2 tk tr0).eval positions F E).1 i1 - F i1
        = -(((TipHarmonicInteraction.mk i1 i2 tk tr0).eval positions F E).1 i2 - F i2)) := by
  refine ⟨?_, ?_, ?_, ?_, ?_⟩ <;> exact addAt_pair_antisym F i1 i2 _ hne

/-- C4 witness: Lennard-Jones at unit separation with distinct indices. -/
theorem two_body_antisymmetry_witness :
    witPos 0 - witPos 1 ≠ 0 ∧
    (((LJInteraction.mk 0 1 1 1).eval witPos (fun _ => 0) (fun _ => 0)).1 0
        - (fun _ => (0 : Vec3)) 0
      = -(((LJInteraction.mk 0 1 1 1).eval witPos (fun _ => 0) (fun _ => 0)).1 1
        - (fun _ => (0 : Vec3)) 1)) :=
  ⟨witPos_sub_ne, (two_body_antisymmetry 0 1 1 1 1 1 1 1 1 1 1 1 witPos
    (fun _ => 0) (fun _ => 0) (by decide) witPos_sub_ne).1⟩

/-- C6: every two-body kernel adds its full pair energy to the energy
entries of both of its participants — each receives the whole pair energy,
not half — so per-particle energies double-count pair energy. -/
theorem two_body_energy_both (i1 i2 : ℕ) (es12 es6 de a re qq hk hr0 tk tr0 : ℝ)
    (positions : ℕ → Vec3) (F : ℕ → Vec3) (E : ℕ → ℝ) (hne : i1 ≠ i2) :
    (((LJInteraction.mk i1 i2 es12 es6).eval positions F E).2 i1
        = E i1 + (LJInteraction.mk i1 i2 es12 es6).pairEnergy positions ∧
      ((LJInteraction.mk i1 i2 es12 es6).eval positions F E).2 i2
        = E i2 + (LJInteraction.mk i1 i2 es12 es6).pairEnergy positions) ∧
    (((MorseInteraction.mk i1 i2 de a re).eval positions F E).2 i1
        = E i1 + (MorseInteraction.mk i1 i2 de a re).pairEnergy positions ∧
      ((MorseInteraction.mk i1 i2 de a re).eval positions F E).2 i2
        = E i2 + (MorseInteraction.mk i1 i2 de a re).pairEnergy positions) ∧
    (((CoulombInteraction.mk i1 i2 qq).eval positions F E).2 i1
        = E i1 + (CoulombInteraction.mk i1 i2 qq).pairEnergy positions ∧
      ((CoulombInteraction.mk i1 i2 qq).eval positions F E).2 i2
        = E i2 + (CoulombInteraction.mk i1 i2 qq).pairEnergy positions) ∧
    (((HarmonicInteraction.mk i1 i2 hk hr0).eval positions F E).2 i1
        = E i1 + (HarmonicInteraction.mk i1 i2 hk hr0).pairEnergy positions ∧
      ((HarmonicInteraction.mk i1 i2 hk hr0).eval positions F E).2 i2
        = E i2 + (HarmonicInteraction.mk i1 i2 hk hr0).pairEnergy positions) ∧
    (((TipHarmonicInteraction.mk i1 i2 tk tr0).eval positions F E).2 i1
        = E i1 + (TipHarmonicInteraction.mk i1 i2 tk tr0).pairEnergy positions ∧
      ((TipHarmonicInteraction.mk i1 i2 tk tr0).eval positions F E).2 i2
        = E i2 + (TipHarmonicInteraction.mk i1 i2 tk tr0).pairEnergy positions) := by
  refine ⟨?_, ?_, ?_, ?_, ?_⟩ <;> exact addAt_pair_both E i1 i2 _ hne

/-- C6 witness: Lennard-Jones at unit separation; both participants'
energy entries receive the full pair energy. -/
theorem two_body_energy_both_witness :
    ((LJInteraction.mk 0 1 1 1).eval witPos (fun _ => 0) (fun _ => 0)).2 0
        = (fun _ => (0 : ℝ)) 0 + (LJInteraction.mk 0 1 1 1).pairEnergy witPos ∧
    ((LJInteraction.mk 0 1 1 1).eval witPos (fun _ => 0) (fun _ => 0)).2 1
        = (fun _ => (0 : ℝ)) 1 + (LJInteraction.mk 0 1 1 1).pairEnergy witPos :=
  (two_body_energy_both 0 1 1 1 1 1 1 1 1 1 1 1 witPos
    (fun _ => 0) (fun _ => 0) (by decide)).1

/-- C7: the substrate wall kernel adds zero energy and zero force when the
axial separation dz exceeds the cutoff; at or below the cutoff it adds the
shifted piecewise 9-3-like energy `multiplier·(2/5·(σ/dz)¹⁰ − (σ/dz)⁴)
+ ulj·dz² − ushift` and the matching derivative term to the force; and in
all cases only the z component of its own particle's force entry changes —
x, y and every other particle's entries are untouched. -/
theorem substrate_piecewise_and_frame (k : SubstrateInteraction)
    (positions : ℕ → Vec3) (F : ℕ → Vec3) (E : ℕ → ℝ) :
    (k.rc < (positions k.atom_i).z - k.z0 →
        (k.eval positions F E).1 = F ∧ (k.eval positions F E).2 = E) ∧
    ((positions k.atom_i).z - k.z0 ≤ k.rc →
        (k.eval positions F E).2 k.atom_i = E k.atom_i +
          (k.multiplier * (2 / 5 * (k.sig / ((positions k.atom_i).z - k.z0)) ^ 10
              - (k.sig / ((positions k.atom_i).z - k.z0)) ^ 4)
            + k.ulj * ((positions k.atom_i).z - k.z0) ^ 2 - k.ushift) ∧
        ((k.eval positions F E).1 k.atom_i).z = (F k.atom_i).z +
          (4 * k.multiplier / ((positions k.atom_i).z - k.z0) *
              ((k.sig / ((positions k.atom_i).z - k.z0)) ^ 10
                - (k.sig / ((positions k.atom_i).z - k.z0)) ^ 4)
            + 2 * k.ulj * ((positions k.atom_i).z - k.z0))) ∧
    ((k.eval positions F E).1 k.atom_i).x = (F k.atom_i).x ∧
    ((k.eval positions F E).1 k.atom_i).y = (F k.atom_i).y ∧
    ∀ j, j ≠ k.atom_i →
        (k.eval positions F E).1 j = F j ∧ (k.eval positions F E).2 j = E j := by
  refine ⟨?_, ?_, ?_, ?_, ?_⟩
  · intro hdz
    have hcond : ¬((positions k.atom_i).z - k.z0 ≤ k.rc) := not_le.mpr hdz
    constructor
    · show Function.update F k.atom_i _ = F
      rw [if_neg hcond, add_zero]
      exact Function.update_eq_self k.atom_i F
    · show addAt E k.atom_i _ = E
      rw [if_neg hcond, addAt_zero_real]
  · intro hdz
    constructor
    · show (addAt E k.atom_i _) k.atom_i = _
      rw [addAt_self, if_pos hdz]
      ring
    · show (Function.update F k.atom_i _ k.atom_i).z = _
      rw [Function.update_same, if_pos hdz]
      ring
  · show (Function.update F k.atom_i _ k.atom_i).x = _
    rw [Function.update_same]
  · show (Function.update F k.atom_i _ k.atom_i).y = _
    rw [Function.update_same]
  · intro j hj
    constructor
    · show Function.update F k.atom_i _ j = F j
      rw [Function.update_noteq hj]
    · show addAt E k.atom_i _ j = E j
      rw [addAt_other _ _ _ _ hj]

/-- C7 witness: dz = 2 above the cutoff 1 — both accumulator arrays come
back unchanged — and entry 5 is untouched. -/
theorem substrate_piecewise_and_frame_witness :
    ((SubstrateInteraction.mk 0 0 1 1 1 1 1).eval (fun _ => ⟨0, 0, 2⟩)
        (fun _ => 0) (fun _ => 0)).1 = (fun _ => 0) ∧
    ((SubstrateInteraction.mk 0 0 1 1 1 1 1).eval (fun _ => ⟨0, 0, 2⟩)
        (fun _ => 0) (fun _ => 0)).2 = (fun _ => 0) ∧
    ((SubstrateInteraction.mk 0 0 1 1 1 1 1).eval (fun _ => ⟨0, 0, 2⟩)
        (fun _ => 0) (fun _ => 0)).1 5 = (fun _ => (0 : Vec3)) 5 := by
  have h := substrate_piecewise_and_frame (SubstrateInteraction.mk 0 0 1 1 1 1 1)
    (fun _ => ⟨0, 0, 2⟩) (fun _ => 0) (fun _ => 0)
  have habove := h.1 (by norm_num)
  exact ⟨habove.1, habove.2, (h.2.2.2.2 5 (by decide)).1⟩

/-- C8: the Lennard-Jones kernel with es12 = 1 and es6 = 1, at any
positions with separation length r = 1: zero energy is added to each
participant, and the added force vector is 6·r̂ (here 6 times the unit
separation vector), of magnitude 6. -/
theorem lj_unit_parameters (i1 i2 : ℕ) (positions : ℕ → Vec3) (F : ℕ → Vec3) (E : ℕ → ℝ)
    (hne : i1 ≠ i2) (hr : (positions i1 - positions i2).len = 1) :
    ((LJInteraction.mk i1 i2 1 1).eval positions F E).2 i1 = E i1 ∧
    ((LJInteraction.mk i1 i2 1 1).eval positions F E).2 i2 = E i2 ∧
    ((LJInteraction.mk i1 i2 1 1).eval positions F E).1 i1 - F i1
        = (6 : ℝ) • (positions i1 - positions i2) ∧
    (((LJInteraction.mk i1 i2 1 1).eval positions F E).1 i1 - F i1).len = 6 := by
  have h0 := Vec3.lensqr_nonneg (positions i1 - positions i2)
  have hsq : (positions i1 - positions i2).lensqr = 1 := by
    have hs := Real.sq_sqrt h0
    rw [← Vec3.len, hr] at hs
    simpa using hs.symm
  have hforce : ((LJInteraction.mk i1 i2 1 1).eval positions F E).1 i1 - F i1
      = (6 : ℝ) • (positions i1 - positions i2) := by
    show (addAt (addAt F i1 _) i2 _) i1 - F i1 = _
    rw [addAt_other _ _ _ _ hne, addAt_self]
    rw [show ∀ v w : Vec3, v + w - v = w from fun v w => by
      ext <;> simp [Vec3.add_def, Vec3.sub_def] ]
    rw [hsq]
    norm_num
  refine ⟨?_, ?_, hforce, ?_⟩
  · show (addAt (addAt E i1 _) i2 _) i1 = E i1
    rw [addAt_other _ _ _ _ hne, addAt_self, hsq]
    norm_num
  · show (addAt (addAt E i1 _) i2 _) i2 = E i2
    rw [addAt_self, addAt_other _ _ _ _ (Ne.symm hne), hsq]
    norm_num
  · rw [hforce, Vec3.len, Vec3.lensqr_smul, hsq]
    rw [show ((6 : ℝ) ^ 2 * 1) = 6 * 6 by norm_num]
    exact Real.sqrt_mul_self (by norm_num)

/-- C8 witness: particles 0 and 1 at unit separation along x. -/
theorem lj_unit_parameters_witness :
    (witPos 0 - witPos 1).len = 1 ∧
    ((LJInteraction.mk 0 1 1 1).eval witPos (fun _ => 0) (fun _ => 0)).2 0
        = (fun _ => (0 : ℝ)) 0 ∧
    ((LJInteraction.mk 0 1 1 1).eval witPos (fun _ => 0) (fun _ => 0)).1 0
        - (fun _ => (0 : Vec3)) 0 = (6 : ℝ) • (witPos 0 - witPos 1) ∧
    (((LJInteraction.mk 0 1 1 1).eval witPos (fun _ => 0) (fun _ => 0)).1 0
        - (fun _ => (0 : Vec3)) 0).len = 6 := by
  have h := lj_unit_parameters 0 1 witPos (fun _ => 0) (fun _ => 0) (by decide) witPos_len
  exact ⟨witPos_len, h.1, h.2.2.1, h.2.2.2⟩

theorem idft3_neg (nx ny nz : ℕ) (F : ℕ → ℕ → ℕ → ℂ) (ix iy iz : ℕ) :
    idft3 nx ny nz (fun jx jy jz => -F jx jy jz) ix iy iz
      = -idft3 nx ny nz F ix iy iz := by
  unfold idft3
  simp [mul_neg, Finset.sum_neg_distrib]

theorem idft3_single (F : ℕ → ℕ → ℕ → ℂ) (ix iy iz : ℕ) :
    idft3 1 1 1 F ix iy iz = F 0 0 0 := by
  unfold idft3
  simp

/-- C2 counterexample: on a 1×1×1 lattice, with the code's own wavenumber
table (kpoints 1 1 0 = −1) and the energy spectrum constantly i, the force
component field the builder computes (multiplier −2π·i·k,
interactions.cpp:160) is −2π, while the claim's rule (multiplier i·2π·k)
demands 2π. -/
theorem spectral_force_claim_counterexample :
    forceComponentField 1 1 1 (fun _ _ _ => kpoints 1 1 0)
        (fun _ _ _ => Complex.I) 0 0 0
      ≠ specForceComponentField 1 1 1 (fun _ _ _ => kpoints 1 1 0)
        (fun _ _ _ => Complex.I) 0 0 0 := by
  have hk : kpoints 1 1 0 = -1 := by norm_num [kpoints, kSpacing]
  have hcode : forceComponentField 1 1 1 (fun _ _ _ => kpoints 1 1 0)
      (fun _ _ _ => Complex.I) 0 0 0 = -(2 * PI) := by
    unfold forceComponentField
    simp only [idft3_single, hk]
    rw [show ((-2 : ℂ) * (PI : ℂ) * Complex.I * (((-1 : ℝ)) : ℂ) * Complex.I)
        = (2 * (PI : ℂ)) * (Complex.I * Complex.I) by push_cast; ring]
    rw [Complex.I_mul_I]
    rw [show ((2 : ℂ) * (PI : ℂ) * (-1)) = ((-(2 * PI) : ℝ) : ℂ) by push_cast; ring]
    exact Complex.ofReal_re _
  have hspec : specForceComponentField 1 1 1 (fun _ _ _ => kpoints 1 1 0)
      (fun _ _ _ => Complex.I) 0 0 0 = 2 * PI := by
    unfold specForceComponentField
    simp only [idft3_single, hk]
    rw [show (Complex.I * 2 * (PI : ℂ) * (((-1 : ℝ)) : ℂ) * Complex.I)
        = (-2 * (PI : ℂ)) * (Complex.I * Complex.I) by push_cast; ring]
    rw [Complex.I_mul_I]
    rw [show ((-2 : ℂ) * (PI : ℂ) * (-1)) = (((2 * PI) : ℝ) : ℂ) by push_cast; ring]
    exact Complex.ofReal_re _
  rw [hcode, hspec]
  intro h
  have hpi : Real.pi = 0 := by
    simp only [PI] at h
    linarith
  exact Real.pi_ne_zero hpi

/-- C2 (amended): each force component field equals the inverse transform
of the energy spectrum multiplied pointwise by −i·2π times the
corresponding wavenumber component — the exact negation of the claim's
i·2π·k expression (the builder computes force = −∇E, the negative spectral
derivative), at every lattice node and for each axis. -/
theorem spectral_force_negated_derivative (nx ny nz : ℕ) (kOf : ℕ → ℕ → ℕ → ℝ)
    (E : ℕ → ℕ → ℕ → ℂ) (ix iy iz : ℕ) :
    forceComponentField nx ny nz kOf E ix iy iz
      = -specForceComponentField nx ny nz kOf E ix iy iz := by
  unfold forceComponentField specForceComponentField
  have h : (fun jx jy jz =>
        (-2 : ℂ) * (PI : ℂ) * Complex.I * ((kOf jx jy jz : ℝ) : ℂ) * E jx jy jz)
      = fun jx jy jz =>
        -(Complex.I * 2 * (PI : ℂ) * ((kOf jx jy jz : ℝ) : ℂ) * E jx jy jz) := by
    funext jx jy jz
    ring
  rw [h, idft3_neg, Complex.neg_re]

end MechAFM
